import Mathlib

/-!
Shallow embedding of the Companies House API wrapper
(`CompaniesHouseService.py`) and of the batch runner that drives it
(`CompaniesHouseRead.py`), with theorems about the embedded code.

Modelling conventions: the HTTP transport is replaced by passing each
function the response the registry would deliver for the one request it
makes; JSON dictionaries become structures whose sometimes-absent keys
are `Option` fields; a Python `KeyError` on a missing key becomes
`Except.error`; wall-clock time is an abstract integer clock on which
`time.sleep w` advances the clock by exactly `w`.
-/

namespace CompaniesHouse

/-! ## Rate limiting (`CompaniesHouseService._rate_limiting`) -/

/-- State-passing embedding of `_rate_limiting`. Inputs: the configured
`time_between_requests` (0.6 seconds by default, here in abstract integer
time units), the stored `last_request_timestamp` (`none` when the client
was just constructed) and the clock value `now` at entry. Output: first
the clock value at which the method returns — the moment the outbound
`requests.get` is issued — and second the refreshed
`last_request_timestamp`. -/
def rate_limiting (time_between_requests : Int) (last : Option Int) (now : Int) :
    Int × Int :=
  match last with
  | none => (now, now)
  | some t =>
      let time_since_request := now - t
      let wait_time := max (time_between_requests - time_since_request) 0
      (now + wait_time, now + wait_time)

/-- Issue one call per entry of `arrivals` (the clock value at which each
call reaches `_rate_limiting`), threading the limiter state; the result
lists the start time of each outbound request. -/
def runCalls (time_between_requests : Int) : Option Int → List Int → List Int
  | _, [] => []
  | last, a :: rest =>
      let r := rate_limiting time_between_requests last a
      r.1 :: runCalls time_between_requests (some r.2) rest

/-- Consecutive entries of the list are separated by at least `gap`. -/
def spaced (gap : Int) : List Int → Bool
  | s1 :: s2 :: rest => (decide (s1 + gap ≤ s2)) && spaced gap (s2 :: rest)
  | _ => true

/-! ## Request helper (`CompaniesHouseService._query_ch_api`) -/

/-- Registry response to a single GET: the HTTP status code together with
the JSON body the registry would deliver, already decoded into `α`. -/
structure HttpResponse (α : Type) where
  status_code : Nat
  body : α

/-- Embedding of `_query_ch_api`: on status 200 decode and return the
body, on any other status return the empty dict (the `empty` value of the
endpoint in question) without raising. -/
def query_ch_api {α : Type} (empty : α) (resp : HttpResponse α) : α :=
  if resp.status_code == 200 then resp.body else empty

/-! ## Profile data model -/

/-- The `registered_office_address` sub-dictionary of a company profile;
every key may be absent. -/
structure Address where
  address_line_1 : Option String := none
  address_line_2 : Option String := none
  locality : Option String := none
  region : Option String := none
  postal_code : Option String := none
  country : Option String := none
deriving DecidableEq

/-- Decoded company-profile JSON body. `company_type` models the `type`
key; `links` is the links dictionary as an association list of key and
relative path; `has_insolvency_history` is kept as the string the batch
runner concatenates into its progress message. -/
structure CompanyProfile where
  company_name : String
  jurisdiction : String := ""
  company_type : String := ""
  registered_office_address : Address := {}
  links : List (String × String) := []
  has_insolvency_history : String := ""
deriving DecidableEq

/-- Embedding of `get_company_profile`, given the registry response for
the profile endpoint: `none` models the empty dict `{}`. -/
def get_company_profile (resp : HttpResponse (Option CompanyProfile)) :
    Option CompanyProfile :=
  query_ch_api none resp

/-! ## Search (`get_first_company_search`) -/

/-- Body of a search response: the `items` array (each item left
abstract as a string payload), or `none` when the `items` key is absent —
in particular for the empty dict a failed fetch produces. -/
structure SearchResponse where
  items : Option (List String) := none
deriving DecidableEq

/-- Embedding of `get_first_company_search` applied to the fetched search
response. The source evaluates `search_result["items"][0]` inside
`try ... except IndexError`: a present, non-empty array yields its first
item; a present, empty array raises `IndexError`, which is caught and
turned into `None`; an absent `items` key raises `KeyError`, which the
handler does not catch, so it propagates (`Except.error`). -/
def get_first_company_search (search_result : SearchResponse) :
    Except String (Option String) :=
  match search_result.items with
  | none => .error "KeyError: items"
  | some [] => .ok none
  | some (first_result :: _) => .ok (some first_result)

/-! ## Directors (`get_company_directors`) -/

/-- One element of the `items` array of an officers page. -/
structure Officer where
  officer_role : String
  name : String
deriving DecidableEq

/-- Body of an officers page: the `items` array, `none` when absent. -/
structure OfficersResponse where
  items : Option (List Officer) := none
deriving DecidableEq

/-- The loop of `get_company_directors`: append the name of each officer
whose `officer_role` equals `"director"`, in list order. -/
def collectDirectors : List Officer → List String
  | [] => []
  | officer :: rest =>
      if officer.officer_role == "director" then officer.name :: collectDirectors rest
      else collectDirectors rest

/-- Embedding of `get_company_directors` applied to the fetched officers
page: `officers["items"]` raises `KeyError` when the key is absent;
otherwise the filtering loop runs and cannot fail. -/
def get_company_directors (officers : OfficersResponse) :
    Except String (List String) :=
  match officers.items with
  | none => .error "KeyError: items"
  | some officer_list => .ok (collectDirectors officer_list)

/-! ## Charges (`get_company_charges`) -/

/-- One element of the `items` array of a charges page, flattened:
`classification_description` models `charge["classification"]["description"]`;
`persons_entitled_head` and `persons_entitled_rest` model the non-empty
`persons_entitled` array of named entries; `particulars_description`
models the optional `charge["particulars"]["description"]`. -/
structure Charge where
  status : String
  classification_description : String := ""
  created_on : String := ""
  delivered_on : String := ""
  persons_entitled_head : String := ""
  persons_entitled_rest : List String := []
  particulars_description : Option String := none
deriving DecidableEq

/-- Body of a charges page: the `items` array, `none` when absent. -/
structure ChargesResponse where
  items : Option (List Charge) := none
deriving DecidableEq

/-- The six strings written into one row of `unsatisfiedCharges` for a
surviving charge: Python `d[0:100]` is `String.take d 100`. -/
def extractCharge (charge : Charge) : List String :=
  [ "Description: " ++ charge.classification_description,
    "Created: " ++ charge.created_on,
    "Delivered: " ++ charge.delivered_on,
    "Status: " ++ charge.status,
    "Persons entitled: " ++ charge.persons_entitled_head,
    match charge.particulars_description with
    | some d => "Short particulars: " ++ d.take 100 ++ "..."
    | none => "[No Result]" ]

/-- The first loop of `get_company_charges`: count the charges whose
status is not `"fully-satisfied"` (the `requiredLength`). -/
def countUnsatisfied : List Charge → Nat
  | [] => 0
  | charge :: rest =>
      if charge.status != "fully-satisfied" then countUnsatisfied rest + 1
      else countUnsatisfied rest

/-- The second loop of `get_company_charges`: fill one row per surviving
charge, in list order, breaking out as soon as `index` (incremented after
each filled row) reaches `requiredLength`. The pre-allocated
`rows × columns` matrix of `""` is modelled by emitting each row as it is
filled: called with `requiredLength = countUnsatisfied charges_list`, the
loop fills every row exactly once before the break fires. -/
def fillUnsatisfied : List Charge → Nat → Nat → List (List String)
  | [], _, _ => []
  | charge :: rest, index, requiredLength =>
      if charge.status != "fully-satisfied" then
        extractCharge charge ::
          (if index + 1 == requiredLength then []
           else fillUnsatisfied rest (index + 1) requiredLength)
      else fillUnsatisfied rest index requiredLength

/-- Embedding of `get_company_charges` applied to the fetched charges
page; `charges["items"]` raises `KeyError` when the key is absent. -/
def get_company_charges (charges : ChargesResponse) :
    Except String (List (List String)) :=
  match charges.items with
  | none => .error "KeyError: items"
  | some charges_list =>
      .ok (fillUnsatisfied charges_list 0 (countUnsatisfied charges_list))

/-! ## Batch runner (`CompaniesHouseRead.py` main loop) -/

/-- Python `str.upper()` for the ASCII strings the registry serves. -/
def pyUpper (s : String) : String := ⟨s.data.map Char.toUpper⟩

/-- Python `str.title()` for ASCII strings: the first letter of every
alphabetic run is upper-cased and the following letters lower-cased. -/
def pyTitle (s : String) : String :=
  ⟨(s.data.foldl (fun (acc : List Char × Bool) c =>
      if c.isAlpha then (acc.1 ++ [if acc.2 then c.toLower else c.toUpper], true)
      else (acc.1 ++ [c], false)) ([], false)).1⟩

/-- One step of the address-assembly chunk, for the keys other than
`address_line_1`: when the component is present the loop runs
`out += ", " + str(value)`, otherwise it leaves the string alone. -/
def appendComponent (s : String) : Option String → String
  | some v => s ++ (", " ++ v)
  | none => s

/-- The address-assembly chunk of the main loop: start from `""`, append
`address_line_1` bare when present, then append each further present
component through `appendComponent`, in the fixed source order. -/
def buildAddress (a : Address) : String :=
  let s := "";
  let s := match a.address_line_1 with
    | some v => s ++ v
    | none => s;
  let s := appendComponent s a.address_line_2;
  let s := appendComponent s a.locality;
  let s := appendComponent s a.region;
  let s := appendComponent s a.postal_code;
  appendComponent s a.country

/-- Spec-side rendering for the address claim: the components present in
the response, in the fixed order line1, line2, locality, region, postal
code, country. -/
def presentComponents (a : Address) : List String :=
  List.filterMap id
    [a.address_line_1, a.address_line_2, a.locality, a.region,
     a.postal_code, a.country]

/-- Spec-side rendering for the address claim: the components joined with
`", "` separating consecutive components, no leading or trailing comma. -/
def joinComma : List String → String
  | [] => ""
  | [x] => x
  | x :: y :: xs => x ++ (", " ++ joinComma (y :: xs))

/-- The three module-level toggles of the batch runner. -/
structure Flags where
  getOfficers : Bool
  getCharges : Bool
  getInsolvency : Bool
deriving DecidableEq

/-- The `CompaniesHouseService` instance as the batch runner observes it:
one function per method the loop calls, each already composed with the
registry. `get_company_profile` returning `none` models the empty dict;
the sub-resource fetchers map a link path to the value the call returns
(the runner only calls them on paths read from the links of a profile,
whose pages it assumes well-shaped). -/
structure Client where
  get_company_profile : String → Option CompanyProfile
  get_company_directors : String → List String
  get_company_charges : String → List (List String)

/-- The output fields one loop iteration can write: `none` in a field
means the iteration never executed `df.at[index, field] = ...` for it, so
the cell keeps whatever the input spreadsheet held. -/
structure OutputRow where
  companyNumber : String
  companyName : Option String := none
  jurisdiction : Option String := none
  companyType : Option String := none
  registeredOfficeAddress : Option String := none
  directors : Option String := none
  charges : Option String := none
  insolvency : Option String := none
deriving DecidableEq

/-- Python `k in d` on the links dictionary. -/
def hasKey (links : List (String × String)) (k : String) : Bool :=
  links.any (fun kv => kv.1 == k)

/-- Python `d[k]` on the links dictionary (only read on keys whose
membership the loop has just tested). -/
def getKey (links : List (String × String)) (k : String) : String :=
  ((links.find? (fun kv => kv.1 == k)).map Prod.snd).getD ""

/-- The while loop building `directors_string`: every name is followed by
`" | "`, the last included. -/
def directorsString (directors : List String) : String :=
  String.join (directors.map (fun d => d ++ " | "))

/-- The nested while loops building `charges_string`: for each charge row
the block is its one-based number, `":\n"`, the first `len(charges[0])`
fields of the row each followed by `"\n"`, then `"\n"`; finally Python
`strip()` (trailing and leading whitespace removed). -/
def chargesString (charges : List (List String)) : String :=
  let fieldCount := (charges.headD []).length;
  (String.join ((charges.enum).map (fun ic =>
    toString (ic.1 + 1) ++ ":\n" ++
      String.join ((ic.2.take fieldCount).map (fun f => f ++ "\n")) ++ "\n"))).trim

/-- The `getInsolvency` block of the loop body: when the (misspelled)
link key `involvency` is missing it writes the sentinel and `continue`s;
otherwise it only prints `has_insolvency_history` and writes no field. -/
def insolvencyStep (fl : Flags) (p : CompanyProfile) (row : OutputRow) (calls : Nat) :
    OutputRow × Nat :=
  if fl.getInsolvency then
    if !(hasKey p.links "involvency") then
      ({ row with insolvency := some "[No Insolvency Data]" }, calls)
    else
      (row, calls)
  else (row, calls)

/-- The `getCharges` block of the loop body: when the `charges` link is
missing it writes the sentinel and `continue`s, skipping the insolvency
block; otherwise one client call fetches the charges page and the
rendered string is written. -/
def chargesStep (fl : Flags) (cl : Client) (p : CompanyProfile) (row : OutputRow)
    (calls : Nat) : OutputRow × Nat :=
  if fl.getCharges then
    if !(hasKey p.links "charges") then
      ({ row with charges := some "[No Charges]" }, calls)
    else
      let fetched := cl.get_company_charges (getKey p.links "charges");
      insolvencyStep fl p { row with charges := some (chargesString fetched) } (calls + 1)
  else insolvencyStep fl p row calls

/-- The `getOfficers` block of the loop body: when the `officers` link is
missing it writes the sentinel and `continue`s, skipping the charges and
insolvency blocks; otherwise one client call fetches the officers page
and the joined director names are written. -/
def officersStep (fl : Flags) (cl : Client) (p : CompanyProfile) (row : OutputRow)
    (calls : Nat) : OutputRow × Nat :=
  if fl.getOfficers then
    if !(hasKey p.links "officers") then
      ({ row with directors := some "[No Directors]" }, calls)
    else
      let fetched := cl.get_company_directors (getKey p.links "officers");
      chargesStep fl cl p { row with directors := some (directorsString fetched) } (calls + 1)
  else chargesStep fl cl p row calls

/-- One iteration of the main loop for the identifier string
`company_number` (already passed through `str`, so a blank/NaN cell
arrives as `"nan"`): the blank branch prints progress and `continue`s
without touching the row or the client; an empty profile writes the four
`"[No Result]"` fields and `continue`s; otherwise the profile fields are
written and the three optional blocks run. The second component counts
the client calls the iteration makes. -/
def processRow (fl : Flags) (cl : Client) (company_number : String) :
    OutputRow × Nat :=
  if company_number == "nan" then
    ({ companyNumber := company_number }, 0)
  else
    match cl.get_company_profile company_number with
    | none =>
        ({ companyNumber := company_number,
           companyName := some "[No Result]",
           jurisdiction := some "[No Result]",
           companyType := some "[No Result]",
           registeredOfficeAddress := some "[No Result]" }, 1)
    | some p =>
        officersStep fl cl p
          { companyNumber := company_number,
            companyName := some p.company_name,
            jurisdiction := some (pyTitle p.jurisdiction),
            companyType := some (pyUpper p.company_type),
            registeredOfficeAddress := some (buildAddress p.registered_office_address) }
          1

/-- The whole main loop: one iteration per input row, in input order. -/
def runBatch (fl : Flags) (cl : Client) (ids : List String) :
    List (OutputRow × Nat) :=
  ids.map (processRow fl cl)

/-! ## Helper lemmas -/

/-- The counting loop agrees with `List.filter` followed by `length`. -/
theorem countUnsatisfied_eq_filter_length (l : List Charge) :
    countUnsatisfied l =
      (l.filter (fun c => c.status != "fully-satisfied")).length := by
  induction l with
  | nil => rfl
  | cons c rest ih =>
      by_cases h : (c.status != "fully-satisfied") = true
      · simp [countUnsatisfied, List.filter_cons, h, ih]
      · simp [countUnsatisfied, List.filter_cons, h, ih]

/-- When `requiredLength` equals `index` plus the number of surviving
charges still to come, the filling loop emits exactly the extraction of
each surviving charge, in order. -/
theorem fillUnsatisfied_eq_filter_map (l : List Charge) :
    ∀ (index requiredLength : Nat),
      requiredLength =
          index + (l.filter (fun c => c.status != "fully-satisfied")).length →
      fillUnsatisfied l index requiredLength =
        (l.filter (fun c => c.status != "fully-satisfied")).map extractCharge := by
  induction l with
  | nil => intro i r _; rfl
  | cons c rest ih =>
      intro i r h
      by_cases hc : (c.status != "fully-satisfied") = true
      · simp only [List.filter_cons, hc, if_true, List.length_cons] at h ⊢
        by_cases hir : i + 1 = r
        · have hb : (i + 1 == r) = true := beq_iff_eq.mpr hir
          have hlen : (rest.filter (fun c => c.status != "fully-satisfied")).length = 0 := by
            omega
          have hnil : rest.filter (fun c => c.status != "fully-satisfied") = [] :=
            List.length_eq_zero.mp hlen
          simp [fillUnsatisfied, hc, hb, hnil]
        · have hb : (i + 1 == r) = false := beq_eq_false_iff_ne.mpr hir
          simp [fillUnsatisfied, hc, hb, ih (i + 1) r (by omega)]
      · have hcf : (c.status != "fully-satisfied") = false := by simpa using hc
        simp only [List.filter_cons, hcf, Bool.false_eq_true, if_false] at h ⊢
        simp [fillUnsatisfied, hcf, ih i r h]

/-- The director-collecting loop agrees with filtering on the role and
projecting the name. -/
theorem collectDirectors_eq_filter_map (l : List Officer) :
    collectDirectors l =
      (l.filter (fun o => o.officer_role == "director")).map (fun o => o.name) := by
  induction l with
  | nil => rfl
  | cons o rest ih =>
      by_cases h : (o.officer_role == "director") = true
      · simp [collectDirectors, List.filter_cons, h, ih]
      · simp [collectDirectors, List.filter_cons, h, ih]

/-- Starting from a stored timestamp `t`, the emitted call starts are
spaced by at least `tbr` and the first of them is at least `t + tbr`. -/
theorem runCalls_some_spaced (tbr : Int) :
    ∀ (l : List Int) (t : Int),
      spaced tbr (runCalls tbr (some t) l) = true ∧
      ∀ s, (runCalls tbr (some t) l).head? = some s → t + tbr ≤ s := by
  intro l
  induction l with
  | nil =>
      intro t
      exact ⟨rfl, by intro s h; simp [runCalls] at h⟩
  | cons a rest ih =>
      intro t
      have hr : runCalls tbr (some t) (a :: rest) =
          (a + max (tbr - (a - t)) 0) ::
            runCalls tbr (some (a + max (tbr - (a - t)) 0)) rest := by
        simp [runCalls, rate_limiting]
      have hbound : t + tbr ≤ a + max (tbr - (a - t)) 0 := by
        have := le_max_left (tbr - (a - t)) (0 : Int)
        linarith
      constructor
      · rw [hr]
        rcases ih (a + max (tbr - (a - t)) 0) with ⟨ihs, ihh⟩
        cases hcase : runCalls tbr (some (a + max (tbr - (a - t)) 0)) rest with
        | nil => simp [spaced]
        | cons s1 tail =>
            have h1 : (a + max (tbr - (a - t)) 0) + tbr ≤ s1 := ihh s1 (by rw [hcase]; rfl)
            have h2 : spaced tbr (s1 :: tail) = true := by rw [← hcase]; exact ihs
            simp [spaced, h1, h2]
      · intro s h
        rw [hr] at h
        simp only [List.head?_cons, Option.some.injEq] at h
        omega

/-! ## Concrete values used by witnesses and counterexamples -/

/-- A fully-satisfied charge. -/
def chargeFS : Charge :=
  { status := "fully-satisfied", classification_description := "charge one",
    created_on := "2001-01-01", delivered_on := "2001-01-08",
    persons_entitled_head := "Bank A" }

/-- An outstanding charge with a particulars description. -/
def chargeOut : Charge :=
  { status := "outstanding", classification_description := "charge two",
    created_on := "2002-02-02", delivered_on := "2002-02-09",
    persons_entitled_head := "Bank B", persons_entitled_rest := ["Bank C"],
    particulars_description := some "plant and machinery" }

/-- A part-satisfied charge without a particulars description. -/
def chargePart : Charge :=
  { status := "part-satisfied", classification_description := "charge three",
    created_on := "2003-03-03", delivered_on := "2003-03-10",
    persons_entitled_head := "Bank D" }

/-- Officers page with roles director, secretary, director. -/
def demoOfficers : List Officer :=
  [ { officer_role := "director", name := "SMITH, Ada" },
    { officer_role := "secretary", name := "JONES, Bob" },
    { officer_role := "director", name := "DOE, Cyd" } ]

/-! ## Claim theorems: client operations -/

/-- Claim C3: between any two consecutive outbound calls on one client
instance at least the configured minimum interval elapses, measured
between call starts (`spaced` over the start times `runCalls` emits,
whatever the arrival times); the first call never waits (its start equals
its arrival); and `rate_limiting` always refreshes the stored timestamp
to the current time — the moment it returns — whether or not it slept. -/
theorem rate_limiting_spacing (tbr : Int) (arrivals : List Int) :
    spaced tbr (runCalls tbr none arrivals) = true ∧
    (runCalls tbr none arrivals).head? = arrivals.head? ∧
    ∀ (last : Option Int) (now : Int),
      (rate_limiting tbr last now).2 = (rate_limiting tbr last now).1 := by
  refine ⟨?_, ?_, ?_⟩
  · cases arrivals with
    | nil => rfl
    | cons a rest =>
        have hr : runCalls tbr none (a :: rest) = a :: runCalls tbr (some a) rest := by
          simp [runCalls, rate_limiting]
        rw [hr]
        rcases runCalls_some_spaced tbr rest a with ⟨ihs, ihh⟩
        cases hcase : runCalls tbr (some a) rest with
        | nil => simp [spaced]
        | cons s1 tail =>
            have h1 : a + tbr ≤ s1 := ihh s1 (by rw [hcase]; rfl)
            have h2 : spaced tbr (s1 :: tail) = true := by rw [← hcase]; exact ihs
            simp [spaced, h1, h2]
  · cases arrivals <;> rfl
  · intro last now
    cases last <;> rfl

/-- Claim C4: `get_company_charges` returns exactly the (extracted)
charges whose status is not `"fully-satisfied"`, in their original
relative order; in particular, for three charges with statuses
fully-satisfied, outstanding, part-satisfied it returns exactly the two
rows for the last two charges, in that order. -/
theorem get_company_charges_filters (l : List Charge) (c1 c2 c3 : Charge)
    (h1 : c1.status = "fully-satisfied") (h2 : c2.status = "outstanding")
    (h3 : c3.status = "part-satisfied") :
    get_company_charges { items := some l } =
      .ok ((l.filter (fun c => c.status != "fully-satisfied")).map extractCharge) ∧
    get_company_charges { items := some [c1, c2, c3] } =
      .ok [extractCharge c2, extractCharge c3] := by
  have key : ∀ m : List Charge,
      get_company_charges { items := some m } =
        .ok ((m.filter (fun c => c.status != "fully-satisfied")).map extractCharge) := by
    intro m
    simp only [get_company_charges]
    rw [countUnsatisfied_eq_filter_length,
      fillUnsatisfied_eq_filter_map m 0 _ (by simp)]
  refine ⟨key l, ?_⟩
  rw [key [c1, c2, c3]]
  simp [List.filter_cons, h1, h2, h3]

/-- Witness for C4 at the three concrete charges of the spec example. -/
theorem get_company_charges_filters_witness :
    get_company_charges { items := some [chargeFS, chargeOut, chargePart] } =
      .ok [extractCharge chargeOut, extractCharge chargePart] :=
  (get_company_charges_filters [] chargeFS chargeOut chargePart rfl rfl rfl).2

/-- Claim C5: `get_company_directors` returns, in original order, exactly
the names of the officers whose role equals `"director"`, and returns the
empty list — without raising — when the fetched page has an empty `items`
array. -/
theorem get_company_directors_filters (resp : OfficersResponse) (l : List Officer)
    (h : resp.items = some l) :
    get_company_directors resp =
      .ok ((l.filter (fun o => o.officer_role == "director")).map (fun o => o.name)) ∧
    get_company_directors { items := some [] } = .ok [] := by
  constructor
  · rcases resp with ⟨items⟩
    simp only at h
    subst h
    simp [get_company_directors, collectDirectors_eq_filter_map]
  · rfl

/-- Witness for C5 at the roles director, secretary, director. -/
theorem get_company_directors_filters_witness :
    get_company_directors { items := some demoOfficers } =
      .ok ["SMITH, Ada", "DOE, Cyd"] ∧
    get_company_directors { items := some [] } = .ok [] := by
  refine ⟨?_, (get_company_directors_filters { items := some [] } [] rfl).2⟩
  exact ((get_company_directors_filters { items := some demoOfficers } demoOfficers
    rfl).1).trans rfl

/-- Claim C8 counterexample: on a search response without an `items` key
(exactly what a failed fetch produces), `get_first_company_search` raises
a `KeyError` instead of returning the none outcome: only `IndexError` is
caught by the source. -/
theorem get_first_company_search_absent_raises :
    get_first_company_search { items := none } = .error "KeyError: items" ∧
    get_first_company_search { items := none } ≠ .ok none := by
  exact ⟨rfl, fun h => Except.noConfusion h⟩

/-- Claim C8 as amended: `get_first_company_search` returns the first
element of the `items` array when the array is present, and the none
outcome — without raising — when the present array is empty; an absent
array instead raises `KeyError`. -/
theorem get_first_company_search_head (l : List String) :
    get_first_company_search { items := some l } = .ok l.head? := by
  cases l <;> rfl

/-- Claim C9: for a surviving charge, the extracted row captures exactly
the name of the first entitled person — unchanged under any further
entitled persons — and renders the particulars field as the description
truncated to its first 100 characters plus an ellipsis when present, and
as the `"[No Result]"` sentinel when absent; `get_company_charges` emits
exactly this row for a surviving charge. -/
theorem extractCharge_fields (charge : Charge) (d : String) (rest : List String)
    (hs : charge.status ≠ "fully-satisfied") :
    (extractCharge charge)[4]? =
      some ("Persons entitled: " ++ charge.persons_entitled_head) ∧
    extractCharge { charge with persons_entitled_rest := rest } = extractCharge charge ∧
    (charge.particulars_description = some d →
      (extractCharge charge)[5]? = some ("Short particulars: " ++ d.take 100 ++ "...")) ∧
    (charge.particulars_description = none →
      (extractCharge charge)[5]? = some "[No Result]") ∧
    get_company_charges { items := some [charge] } = .ok [extractCharge charge] := by
  have hb : (charge.status != "fully-satisfied") = true := by
    simpa [bne_iff_ne] using hs
  refine ⟨rfl, rfl, ?_, ?_, ?_⟩
  · intro h; simp [extractCharge, h]
  · intro h; simp [extractCharge, h]
  · simp [get_company_charges, countUnsatisfied, fillUnsatisfied, hb]

set_option maxRecDepth 8000 in
/-- Witness for C9 at the outstanding charge, whose particulars
description is present. -/
theorem extractCharge_fields_witness :
    (extractCharge chargeOut)[4]? = some "Persons entitled: Bank B" ∧
    (extractCharge chargeOut)[5]? = some "Short particulars: plant and machinery..." ∧
    get_company_charges { items := some [chargeOut] } = .ok [extractCharge chargeOut] := by
  have h := extractCharge_fields chargeOut "plant and machinery" ["Bank E"] (by decide)
  exact ⟨h.1.trans rfl, (h.2.2.1 rfl).trans rfl, h.2.2.2.2⟩

/-! ## Claim theorems: batch runner -/

/-- A client whose profile lookups all come back as the empty dict. -/
def emptyClient : Client :=
  { get_company_profile := fun _ => none,
    get_company_directors := fun _ => [],
    get_company_charges := fun _ => [] }

/-- Claim C1 as amended: the batch emits exactly one output entry per
input identifier, in input order, and a blank identifier makes zero
client calls — but its row is left entirely unwritten (every output field
`none`), not filled with sentinel values. -/
theorem runBatch_length_order_blank (fl : Flags) (cl : Client) (ids : List String) :
    (runBatch fl cl ids).length = ids.length ∧
    (∀ i : Nat, (runBatch fl cl ids)[i]? = (ids[i]?).map (processRow fl cl)) ∧
    processRow fl cl "nan" = ({ companyNumber := "nan" }, 0) := by
  refine ⟨by simp [runBatch], fun i => by simp [runBatch], rfl⟩

/-- Claim C1 counterexample: for the blank identifier the loop makes zero
client calls, but the row is not fully sentinel — no output field is
written at all; in particular the Company Name cell is left untouched
instead of holding a sentinel string. -/
theorem blank_row_not_sentinel :
    (processRow ⟨true, true, true⟩ emptyClient "nan").2 = 0 ∧
    (processRow ⟨true, true, true⟩ emptyClient "nan").1.companyName = none ∧
    (processRow ⟨true, true, true⟩ emptyClient "nan").1.companyName ≠ some "[No Result]" ∧
    (processRow ⟨true, true, true⟩ emptyClient "nan").1.registeredOfficeAddress = none := by
  exact ⟨rfl, rfl, fun h => Option.noConfusion h, rfl⟩

/-- Claim C2: any non-success status makes `get_company_profile` return
the empty dict without raising; a row whose profile comes back empty gets
Company Name, Jurisdiction, Type and Registered Office Address all set to
the `"[No Result]"` sentinel; and the batch goes on to process the
remaining identifiers. -/
theorem query_failure_yields_no_result (resp : HttpResponse (Option CompanyProfile))
    (hst : resp.status_code ≠ 200) (fl : Flags) (cl : Client) (cn : String)
    (hcn : cn ≠ "nan") (hprof : cl.get_company_profile cn = none) (rest : List String) :
    get_company_profile resp = none ∧
    (processRow fl cl cn).1.companyName = some "[No Result]" ∧
    (processRow fl cl cn).1.jurisdiction = some "[No Result]" ∧
    (processRow fl cl cn).1.companyType = some "[No Result]" ∧
    (processRow fl cl cn).1.registeredOfficeAddress = some "[No Result]" ∧
    runBatch fl cl (cn :: rest) = processRow fl cl cn :: runBatch fl cl rest := by
  have hb : (cn == "nan") = false := beq_eq_false_iff_ne.mpr hcn
  have hs : (resp.status_code == 200) = false := beq_eq_false_iff_ne.mpr hst
  refine ⟨?_, ?_, ?_, ?_, ?_, rfl⟩
  · simp [get_company_profile, query_ch_api, hs]
  all_goals simp [processRow, hb, hprof]

/-- A company profile used to show that a non-success status discards
even a well-formed body. -/
def demoProfile : CompanyProfile :=
  { company_name := "ACME LIMITED", jurisdiction := "england-wales",
    company_type := "ltd",
    registered_office_address :=
      { address_line_1 := some "1 Main St", locality := some "London" },
    links := [("self", "/company/00000000")] }

/-- Witness for C2 at status 404 and the identifier `"000"`. -/
theorem query_failure_yields_no_result_witness :
    get_company_profile { status_code := 404, body := some demoProfile } = none ∧
    (processRow ⟨false, false, false⟩ emptyClient "000").1.companyName =
      some "[No Result]" ∧
    runBatch ⟨false, false, false⟩ emptyClient ["000", "123"] =
      processRow ⟨false, false, false⟩ emptyClient "000" ::
        runBatch ⟨false, false, false⟩ emptyClient ["123"] := by
  have h := query_failure_yields_no_result
    { status_code := 404, body := some demoProfile } (by decide)
    ⟨false, false, false⟩ emptyClient "000" (by decide) rfl ["123"]
  exact ⟨h.1, h.2.1, h.2.2.2.2.2⟩

/-- Claim C6 as amended: when `address_line_1` is present the assembled
address is exactly the present components joined by `", "` with no
leading or trailing comma; when `address_line_1` is absent every further
present component is still appended with its `", "` cut-in, so the
string starts with `", "` rather than the first component. -/
theorem buildAddress_join (a : Address) (v : String) (h1 : a.address_line_1 = some v) :
    buildAddress a = joinComma (presentComponents a) ∧
    buildAddress { a with address_line_1 := none } =
      String.join ((presentComponents { a with address_line_1 := none }).map
        (fun c => ", " ++ c)) := by
  rcases a with ⟨l1, l2, loc, reg, pc, co⟩
  obtain rfl : l1 = some v := h1
  constructor
  · cases l2 <;> cases loc <;> cases reg <;> cases pc <;> cases co <;>
      simp [buildAddress, appendComponent, presentComponents, joinComma,
        String.append_assoc, String.empty_append]
  · cases l2 <;> cases loc <;> cases reg <;> cases pc <;> cases co <;>
      simp [buildAddress, appendComponent, presentComponents, String.join,
        String.append_assoc, String.empty_append, String.append_empty]

/-- Witness for C6 at the address of the spec example: only line1 and
locality present. -/
theorem buildAddress_join_witness :
    buildAddress { address_line_1 := some "1 Main St", locality := some "London" } =
      "1 Main St, London" := by
  have h := (buildAddress_join
    { address_line_1 := some "1 Main St", locality := some "London" } "1 Main St" rfl).1
  exact h.trans (by decide)

/-- The registered office address of the C6 counterexample: only the
locality is present. -/
def localityOnlyAddress : Address := { locality := some "London" }

/-- A client serving a profile whose address has only a locality. -/
def localityClient : Client :=
  { get_company_profile := fun _ =>
      some { company_name := "Locality Ltd",
             registered_office_address := localityOnlyAddress },
    get_company_directors := fun _ => [],
    get_company_charges := fun _ => [] }

/-- Claim C6 counterexample: for a profile whose only present component
is the locality `"London"`, the assembled address is `", London"` — it
carries a leading `", "`, so it is not the present components separated
by `", "` (which would be `"London"`); the batch runner writes exactly
this leading-comma string into the row. -/
theorem buildAddress_leading_comma :
    buildAddress localityOnlyAddress = ", London" ∧
    joinComma (presentComponents localityOnlyAddress) = "London" ∧
    buildAddress localityOnlyAddress ≠ joinComma (presentComponents localityOnlyAddress) ∧
    (processRow ⟨false, false, false⟩ localityClient "123").1.registeredOfficeAddress =
      some ", London" := by
  refine ⟨by decide, by decide, by decide, by decide⟩

/-- A client serving a profile whose links contain the correctly spelled
`insolvency` key and whose insolvency-history indicator is `"true"`. -/
def insolvencyClient : Client :=
  { get_company_profile := fun _ =>
      some { company_name := "Troubled Ltd",
             links := [("insolvency", "/company/00000001/insolvency")],
             has_insolvency_history := "true" },
    get_company_directors := fun _ => [],
    get_company_charges := fun _ => [] }

/-- A client serving a profile whose links even contain the misspelled
`involvency` key the source tests for, with the indicator `"true"`. -/
def involvencyClient : Client :=
  { get_company_profile := fun _ =>
      some { company_name := "Troubled Ltd",
             links := [("involvency", "/company/00000001/insolvency")],
             has_insolvency_history := "true" },
    get_company_directors := fun _ => [],
    get_company_charges := fun _ => [] }

/-- Claim C7, evaluating the code at the failing input: with insolvency
reporting enabled and a profile that exposes the indicator
(`has_insolvency_history = "true"` behind a real `insolvency` link), the
loop writes the `"[No Insolvency Data]"` sentinel because it tests the
misspelled link key `involvency`; and even when that misspelled key is
present, the branch only prints the indicator — the Insolvency field is
never written. The indicator is never surfaced in the output field. -/
theorem insolvency_never_surfaced :
    (processRow ⟨false, false, true⟩ insolvencyClient "123").1.insolvency =
      some "[No Insolvency Data]" ∧
    (processRow ⟨false, false, true⟩ involvencyClient "123").1.insolvency = none := by
  exact ⟨rfl, rfl⟩

/-- Claim C10: with every toggle enabled, a profile whose links lack the
officers entry gets `"[No Directors]"` and the loop `continue`s, so the
Charges and Insolvency fields of its row are never written; likewise a
profile whose links lack the charges entry (with charge-fetching enabled)
gets `"[No Charges]"` and its Insolvency field is never written. -/
theorem missing_link_skips_rest (cl : Client) (p : CompanyProfile) (cn : String)
    (hcn : cn ≠ "nan") (hp : cl.get_company_profile cn = some p) :
    (hasKey p.links "officers" = false →
      (processRow ⟨true, true, true⟩ cl cn).1.directors = some "[No Directors]" ∧
      (processRow ⟨true, true, true⟩ cl cn).1.charges = none ∧
      (processRow ⟨true, true, true⟩ cl cn).1.insolvency = none) ∧
    (hasKey p.links "charges" = false →
      (processRow ⟨false, true, true⟩ cl cn).1.charges = some "[No Charges]" ∧
      (processRow ⟨false, true, true⟩ cl cn).1.insolvency = none) := by
  have hb : (cn == "nan") = false := beq_eq_false_iff_ne.mpr hcn
  constructor
  · intro h
    refine ⟨?_, ?_, ?_⟩ <;> simp [processRow, hb, hp, officersStep, h]
  · intro h
    refine ⟨?_, ?_⟩ <;> simp [processRow, hb, hp, officersStep, chargesStep, h]

/-- A client serving a profile with an empty links dictionary. -/
def noLinksClient : Client :=
  { get_company_profile := fun _ => some { company_name := "Bare Ltd", links := [] },
    get_company_directors := fun _ => [],
    get_company_charges := fun _ => [] }

/-- Witness for C10 at a profile without officers or charges links. -/
theorem missing_link_skips_rest_witness :
    (processRow ⟨true, true, true⟩ noLinksClient "123").1.directors =
      some "[No Directors]" ∧
    (processRow ⟨true, true, true⟩ noLinksClient "123").1.charges = none ∧
    (processRow ⟨true, true, true⟩ noLinksClient "123").1.insolvency = none ∧
    (processRow ⟨false, true, true⟩ noLinksClient "123").1.charges =
      some "[No Charges]" ∧
    (processRow ⟨false, true, true⟩ noLinksClient "123").1.insolvency = none := by
  have h := missing_link_skips_rest noLinksClient
    { company_name := "Bare Ltd", links := [] } "123" (by decide) rfl
  obtain ⟨a, b, c⟩ := h.1 rfl
  obtain ⟨d, e⟩ := h.2 rfl
  exact ⟨a, b, c, d, e⟩

end CompaniesHouse
